import Mathlib

/-!
Verification of the Guardian Asset Console core: the in-memory entity
store (src/api/db.ts), the authorization policy (src/domain/permissions.ts)
and the request handlers (src/api/handlers.ts), shallowly embedded in Lean.

Modelling conventions:
- ISO-8601 timestamp strings are compared in the source only through
  `new Date(s).getTime()`; we model a timestamp directly as that
  millisecond value, a natural number.
- `Date.now()` and the random id suffix produced by
  `Math.random().toString(36).substring(2, 9)` are ambient effects; we
  pass them in as explicit `now : Nat` and `rand : String` parameters.
- JavaScript object mutation through a reference obtained by
  `Array.prototype.find` is modelled by replacing the first matching
  element of the list (the element `find` returns), and mutation of an
  object shared between a filtered copy and the original array is
  modelled by an id-indexed update (incident ids are unique in the data).
- A thrown `Error` is modelled by `Except.error` carrying the message.
-/

namespace Guardian

/-- Roles, from src/domain/types.ts. -/
inductive Role where
  | operator
  | admin
  | auditor
deriving DecidableEq, Repr

/-- Severity levels, from src/domain/types.ts. -/
inductive Severity where
  | critical
  | high
  | medium
  | low
  | info
deriving DecidableEq, Repr

/-- Asset status values, from src/domain/types.ts. -/
inductive AssetStatus where
  | active
  | missing
  | anomaly
  | resolved
deriving DecidableEq, Repr

/-- Permission actions, from src/domain/permissions.ts. -/
inductive PermissionAction where
  | view_assets
  | view_asset_detail
  | resolve_incident
  | view_audit
  | create_scan
  | filter_assets
  | search_assets
deriving DecidableEq, Repr

/-- The policy function `can` of src/domain/permissions.ts, translated
clause by clause: admin can do everything; operator and auditor are
checked against their literal permission lists; any other case is denied. -/
def can (role : Role) (action : PermissionAction) : Bool :=
  if role = Role.admin then
    true
  else if role = Role.operator then
    [PermissionAction.view_assets,
     PermissionAction.view_asset_detail,
     PermissionAction.filter_assets,
     PermissionAction.search_assets,
     PermissionAction.create_scan].contains action
  else if role = Role.auditor then
    [PermissionAction.view_assets,
     PermissionAction.view_asset_detail,
     PermissionAction.view_audit,
     PermissionAction.filter_assets,
     PermissionAction.search_assets].contains action
  else
    false

/-- Asset record, from src/domain/types.ts.  Timestamps are millisecond
values (see the modelling conventions above). -/
structure Asset where
  id : String
  tagId : String
  name : String
  site : String
  status : AssetStatus
  severity : Severity
  lastSeenAt : Nat
  createdAt : Nat
  metadata : Option (List (String × String))
deriving DecidableEq, Repr

/-- Scan record, from src/domain/types.ts. -/
structure Scan where
  id : String
  assetId : String
  site : String
  scannedAt : Nat
  readerId : String
deriving DecidableEq, Repr

/-- Incident record, from src/domain/types.ts.  Optional fields are
`Option`; an open incident has `resolvedAt = none`. -/
structure Incident where
  id : String
  assetId : String
  severity : Severity
  description : String
  createdAt : Nat
  resolvedAt : Option Nat
  resolvedBy : Option String
  resolutionReason : Option String
deriving DecidableEq, Repr

/-- Audit log record, from src/domain/types.ts.  The untyped `details`
record is modelled as an association list of string fields. -/
structure AuditLog where
  id : String
  userId : String
  action : String
  resourceType : String
  resourceId : String
  details : Option (List (String × String))
  timestamp : Nat
deriving DecidableEq, Repr

/-- The four in-memory collections of the `Database` class in
src/api/db.ts. -/
structure Database where
  assets : List Asset
  scans : List Scan
  incidents : List Incident
  auditLogs : List AuditLog
deriving DecidableEq, Repr

/-- Database.getAuditLogs: returns the audit collection (the source
returns a spread copy of the array; in the pure model the value itself). -/
def getAuditLogs (db : Database) : List AuditLog :=
  db.auditLogs

/-- Database.getAssets. -/
def getAssets (db : Database) : List Asset :=
  db.assets

/-- Database.getAssetById: `this.assets.find(asset => asset.id === id)`. -/
def getAssetById (db : Database) (id : String) : Option Asset :=
  db.assets.find? fun asset => asset.id == id

/-- Input to Database.createScan: `Omit<Scan, 'id'>`. -/
structure ScanInput where
  assetId : String
  site : String
  scannedAt : Nat
  readerId : String
deriving DecidableEq, Repr

/-- The in-place mutation `asset.lastSeenAt = scan.scannedAt` performed on
the object returned by `this.getAssetById`: the first asset whose id
matches is replaced, the rest of the array is untouched. -/
def setLastSeenFirst : List Asset → String → Nat → List Asset
  | [], _, _ => []
  | a :: rest, assetId, t =>
    if a.id == assetId then { a with lastSeenAt := t } :: rest
    else a :: setLastSeenFirst rest assetId t

/-- Database.createScan of src/api/db.ts: builds the new scan with a fresh
id, pushes it onto the scans array, then advances the lastSeenAt of the
scanned asset when the scan is strictly newer (`scanTime > currentLastSeen`). -/
def createScan (db : Database) (scan : ScanInput) (now : Nat) (rand : String) :
    Scan × Database :=
  let newScan : Scan :=
    { id := "scan-" ++ toString now ++ "-" ++ rand
      assetId := scan.assetId
      site := scan.site
      scannedAt := scan.scannedAt
      readerId := scan.readerId }
  let newScans := db.scans ++ [newScan]
  let newAssets :=
    match getAssetById db scan.assetId with
    | some asset =>
      if asset.lastSeenAt < scan.scannedAt then
        setLastSeenFirst db.assets scan.assetId scan.scannedAt
      else
        db.assets
    | none => db.assets
  (newScan, { db with scans := newScans, assets := newAssets })

/-- The filter `inc => inc.assetId === assetId && !inc.resolvedAt` used by
Database.resolveIncident to collect the unresolved incidents of an asset. -/
def unresolvedFor (db : Database) (assetId : String) : List Incident :=
  db.incidents.filter fun inc => inc.assetId == assetId && inc.resolvedAt == none

/-- The in-place mutation `asset.status = 'resolved'` performed on the
object returned by `this.getAssetById` inside Database.resolveIncident. -/
def setStatusFirst : List Asset → String → List Asset
  | [], _ => []
  | a :: rest, assetId =>
    if a.id == assetId then { a with status := AssetStatus.resolved } :: rest
    else a :: setStatusFirst rest assetId

/-- The audit entry built by Database.resolveIncident. -/
def mkResolveAuditEntry (assetId incidentId resolvedBy resolutionReason : String)
    (now : Nat) (rand : String) : AuditLog :=
  { id := "audit-" ++ toString now ++ "-" ++ rand
    userId := resolvedBy
    action := "incident.resolve"
    resourceType := "incident"
    resourceId := incidentId
    details := some [("assetId", assetId), ("incidentId", incidentId),
                     ("resolutionReason", resolutionReason)]
    timestamp := now }

/-- Database.resolveIncident of src/api/db.ts: filters the unresolved
incidents of the asset, sorts them newest-first with the comparator
`(a, b) => b.createdAt - a.createdAt` (Array.prototype.sort is stable, so
this is a stable descending merge sort), takes the first, throws when
there is none, otherwise sets the resolution fields on that incident,
flips the status of the parent asset when it exists, and unshifts one
audit entry. -/
def resolveIncident (db : Database) (assetId resolvedBy resolutionReason : String)
    (now : Nat) (rand : String) : Except String (Incident × Database) :=
  match (unresolvedFor db assetId).mergeSort
      (fun a b => b.createdAt ≤ a.createdAt) with
  | [] => Except.error ("No unresolved incident found for asset " ++ assetId)
  | incident :: _ =>
    let newIncidents := db.incidents.map fun i =>
      if i.id == incident.id then
        { i with resolvedAt := some now, resolvedBy := some resolvedBy,
                 resolutionReason := some resolutionReason }
      else i
    let newAssets := setStatusFirst db.assets assetId
    let entry := mkResolveAuditEntry assetId incident.id resolvedBy resolutionReason now rand
    Except.ok
      ({ incident with resolvedAt := some now, resolvedBy := some resolvedBy,
                       resolutionReason := some resolutionReason },
       { db with incidents := newIncidents, assets := newAssets,
                 auditLogs := entry :: db.auditLogs })

/-- Input to Database.createAuditLog: `Omit<AuditLog, 'id'>`. -/
structure AuditLogInput where
  userId : String
  action : String
  resourceType : String
  resourceId : String
  details : Option (List (String × String))
  timestamp : Nat
deriving DecidableEq, Repr

/-- The new entry built by Database.createAuditLog from its input and a
fresh id. -/
def mkAuditLog (log : AuditLogInput) (now : Nat) (rand : String) : AuditLog :=
  { id := "audit-" ++ toString now ++ "-" ++ rand
    userId := log.userId
    action := log.action
    resourceType := log.resourceType
    resourceId := log.resourceId
    details := log.details
    timestamp := log.timestamp }

/-- Database.createAuditLog of src/api/db.ts: unshift onto the audit
array, newest first. -/
def createAuditLog (db : Database) (log : AuditLogInput) (now : Nat) (rand : String) :
    AuditLog × Database :=
  let newLog := mkAuditLog log now rand
  (newLog, { db with auditLogs := newLog :: db.auditLogs })

/-- The handler layer of src/api/handlers.ts responds with either a JSON
body and a success status, or an error message and an error status. -/
inductive HResp (α : Type) where
  | success (status : Nat) (body : α)
  | failure (status : Nat) (error : String)
deriving DecidableEq, Repr

/-- getRoleFromRequest of src/api/handlers.ts: the value of the
`x-guardian-role` header (`none` when absent) is accepted when it is one
of the three role literals, everything else falls back to operator. -/
def getRoleFromRequest (roleHeader : Option String) : Role :=
  match roleHeader with
  | none => Role.operator
  | some s =>
    if s = "admin" then Role.admin
    else if s = "operator" then Role.operator
    else if s = "auditor" then Role.auditor
    else Role.operator

/-- getUserIdFromRequest of src/api/handlers.ts:
`request.headers.get(..) || 'user-001'` — an absent header and the empty
string are both falsy in JavaScript, so both yield the default. -/
def getUserIdFromRequest (userIdHeader : Option String) : String :=
  match userIdHeader with
  | none => "user-001"
  | some s => if s = "" then "user-001" else s

/-- Request body of POST /api/scans.  A field missing from the JSON body
is falsy exactly like the empty string, so absence is modelled as `""`. -/
structure ScanBody where
  assetId : String
  site : String
  readerId : String
deriving DecidableEq, Repr

/-- createScanHandler of src/api/handlers.ts: policy check, required-field
check, asset existence check, then Database.createScan with server time as
`scannedAt`.  Error paths leave the database untouched. -/
def createScanHandler (db : Database) (roleHeader : Option String) (body : ScanBody)
    (now : Nat) (rand : String) : HResp Scan × Database :=
  if !can (getRoleFromRequest roleHeader) PermissionAction.create_scan then
    (HResp.failure 403 "Forbidden", db)
  else if body.assetId = "" ∨ body.site = "" ∨ body.readerId = "" then
    (HResp.failure 400 "Missing required fields: assetId, site, readerId", db)
  else
    match getAssetById db body.assetId with
    | none => (HResp.failure 404 "Asset not found", db)
    | some _ =>
      let result := createScan db
        { assetId := body.assetId, site := body.site, scannedAt := now,
          readerId := body.readerId } now rand
      (HResp.success 201 result.1, result.2)

/-- JavaScript `s.trim()`: strip whitespace from both ends. -/
def jsTrim (s : String) : String :=
  String.mk
    (((s.data.dropWhile Char.isWhitespace).reverse.dropWhile
      Char.isWhitespace).reverse)

/-- resolveIncidentHandler of src/api/handlers.ts: policy check, then the
`!body.reason || body.reason.trim().length === 0` validation (both
disjuncts are equivalent to the trimmed reason being empty), then
Database.resolveIncident on the trimmed reason; a thrown store error is
caught and mapped to a 404 with the error message. -/
def resolveIncidentHandler (db : Database) (roleHeader userIdHeader : Option String)
    (assetId reason : String) (now : Nat) (rand : String) : HResp Incident × Database :=
  if !can (getRoleFromRequest roleHeader) PermissionAction.resolve_incident then
    (HResp.failure 403 "Forbidden: Only admins can resolve incidents", db)
  else if jsTrim reason = "" then
    (HResp.failure 400 "Resolution reason is required", db)
  else
    match resolveIncident db assetId (getUserIdFromRequest userIdHeader)
        (jsTrim reason) now rand with
    | Except.ok (incident, db2) => (HResp.success 200 incident, db2)
    | Except.error msg => (HResp.failure 404 msg, db)

/-- One `if (param) logs = logs.filter(l => l.field === param)` step of
getAuditLogsHandler: a query parameter is applied when present and truthy
(the empty string is falsy). -/
def applyParamFilter (logs : List AuditLog) (p : Option String)
    (f : AuditLog → String) : List AuditLog :=
  match p with
  | none => logs
  | some s => if s = "" then logs else logs.filter fun l => f l == s

/-- The filter pipeline of getAuditLogsHandler before the limit step:
optional action, userId and resourceType filters over the newest-first
audit collection. -/
def filteredAuditLogs (db : Database) (action userId resourceType : Option String) :
    List AuditLog :=
  applyParamFilter
    (applyParamFilter
      (applyParamFilter (getAuditLogs db) action (fun l => l.action))
      userId (fun l => l.userId))
    resourceType (fun l => l.resourceType)

/-- JavaScript `parseInt(s, 10)`: skip leading whitespace, optional sign,
longest digit run; `none` models NaN (no digits). -/
def jsParseInt (s : String) : Option Int :=
  let digitsVal : List Char → Option Nat := fun cs =>
    let ds := cs.takeWhile Char.isDigit
    if ds = [] then none
    else some (ds.foldl (fun n c => 10 * n + (c.toNat - 48)) 0)
  match s.data.dropWhile Char.isWhitespace with
  | '-' :: rest => (digitsVal rest).map fun n => -(n : Int)
  | '+' :: rest => (digitsVal rest).map fun n => (n : Int)
  | cs => (digitsVal cs).map fun n => (n : Int)

/-- JavaScript `l.slice(0, e)` where `e` may be NaN (`none`): NaN converts
to 0, a negative end counts from the end of the array clamped at 0, a
nonnegative end takes that many elements from the front. -/
def jsSliceEnd {α : Type} (l : List α) (e : Option Int) : List α :=
  match e with
  | none => []
  | some i => if i < 0 then l.take (l.length - i.natAbs) else l.take i.toNat

/-- getAuditLogsHandler of src/api/handlers.ts: policy check, the three
optional filters, then `if (limit) logs = logs.slice(0, parseInt(limit, 10))`. -/
def getAuditLogsHandler (db : Database)
    (roleHeader action userId resourceType limit : Option String) :
    HResp (List AuditLog) :=
  if !can (getRoleFromRequest roleHeader) PermissionAction.view_audit then
    HResp.failure 403 "Forbidden: Only auditors and admins can view audit logs"
  else
    let logs := filteredAuditLogs db action userId resourceType
    HResp.success 200
      (match limit with
       | none => logs
       | some s => if s = "" then logs else jsSliceEnd logs (jsParseInt s))

/-- A single store mutation, for stating properties over arbitrary
operation sequences: Database.createScan, Database.resolveIncident or
Database.createAuditLog with their ambient clock and id-suffix values. -/
inductive StoreOp where
  | scanOp (input : ScanInput) (now : Nat) (rand : String)
  | resolveOp (assetId resolvedBy reason : String) (now : Nat) (rand : String)
  | auditOp (input : AuditLogInput) (now : Nat) (rand : String)

/-- Run one store mutation; a resolveIncident that throws leaves the
store as it was (the throw happens before any mutation in the source). -/
def applyOp (db : Database) (op : StoreOp) : Database :=
  match op with
  | StoreOp.scanOp input now rand => (createScan db input now rand).2
  | StoreOp.resolveOp assetId resolvedBy reason now rand =>
    match resolveIncident db assetId resolvedBy reason now rand with
    | Except.ok (_, db2) => db2
    | Except.error _ => db
  | StoreOp.auditOp input now rand => (createAuditLog db input now rand).2

/-- Run a sequence of Database.createScan calls. -/
def applyScans (db : Database) (ops : List (ScanInput × Nat × String)) : Database :=
  ops.foldl (fun d p => (createScan d p.1 p.2.1 p.2.2).2) db

/-- Run a sequence of Database.createAuditLog calls. -/
def appendMany (db : Database) (ops : List (AuditLogInput × Nat × String)) : Database :=
  ops.foldl (fun d p => (createAuditLog d p.1 p.2.1 p.2.2).2) db

/-!
Reference-semantics model for the read operations of src/api/db.ts.

In JavaScript the collections are arrays of references to mutable
objects.  `getAssets` returns `[...this.assets]` — a fresh array whose
elements are the same references — and `getAssetById` returns
`this.assets.find(...)`, the live object itself.  To reason about
aliasing we make the heap explicit for the asset collection: a reference
is an index into `heap`, and `assetRefs` is the stored array of
references.  Writing through a reference (`heapWrite`) is what a caller
does when it assigns to a field of an object it received.
-/

/-- The asset collection with its object heap made explicit. -/
structure AssetHeapStore where
  heap : List Asset
  assetRefs : List Nat
deriving DecidableEq, Repr

/-- Dereference: read the object a reference points to. -/
def readRef (s : AssetHeapStore) (r : Nat) : Option Asset :=
  s.heap[r]?

/-- A caller assigning to a field of an object it holds a reference to:
the heap cell changes, the stored reference arrays do not. -/
def heapWrite (s : AssetHeapStore) (r : Nat) (v : Asset) : AssetHeapStore :=
  { s with heap := s.heap.set r v }

/-- Database.getAssets under reference semantics: `[...this.assets]`
copies the array of references, not the objects. -/
def getAssetsRefs (s : AssetHeapStore) : List Nat :=
  s.assetRefs

/-- Database.getAssetById under reference semantics:
`this.assets.find(asset => asset.id === id)` returns the reference to the
first matching object, not a copy of it. -/
def getAssetByIdRef (s : AssetHeapStore) (id : String) : Option Nat :=
  s.assetRefs.find? fun r =>
    match readRef s r with
    | some a => a.id == id
    | none => false

/-- The observable content of the asset collection: what the store itself
sees when its references are dereferenced. -/
def storeAssets (s : AssetHeapStore) : List (Option Asset) :=
  s.assetRefs.map (readRef s)

/-- HTTP methods used by the MSW route registrations in
src/api/handlers.ts. -/
inductive HttpMethod where
  | get
  | post
deriving DecidableEq, Repr

/-- A registered route: method plus MSW path pattern. -/
structure RouteDef where
  method : HttpMethod
  pattern : String
deriving DecidableEq, Repr

/-- The complete `handlers` array exported by src/api/handlers.ts: the
five registered routes, in source order. -/
def handlersRoutes : List RouteDef :=
  [ { method := HttpMethod.get, pattern := "/api/assets" },
    { method := HttpMethod.get, pattern := "/api/assets/:id" },
    { method := HttpMethod.post, pattern := "/api/scans" },
    { method := HttpMethod.post, pattern := "/api/incidents/:assetId/resolve" },
    { method := HttpMethod.get, pattern := "/api/audit" } ]

/-- Split a character list at every slash (the splitting step of
URL-path segmentation). -/
def splitSlashAux : List Char → List Char → List String
  | [], acc => [String.mk acc.reverse]
  | '/' :: rest, acc => String.mk acc.reverse :: splitSlashAux rest []
  | c :: rest, acc => splitSlashAux rest (c :: acc)

/-- Split a URL path into its nonempty segments. -/
def pathSegments (p : String) : List String :=
  (splitSlashAux p.data []).filter fun s => s ≠ ""

/-- One pattern segment matches one path segment when it is a `:param`
placeholder (starts with a colon) or the literal segment. -/
def segMatches (pat seg : String) : Bool :=
  (match pat.data with
   | ':' :: _ => true
   | _ => false) || pat == seg

/-- MSW path matching, segment by segment: same number of segments and
every pattern segment matches the corresponding path segment. -/
def pathMatches (pattern path : String) : Bool :=
  let ps := pathSegments pattern
  let qs := pathSegments path
  ps.length == qs.length && (ps.zip qs).all fun pq => segMatches pq.1 pq.2

/-- A route handles a request when the method and the path both match. -/
def routeMatches (r : RouteDef) (m : HttpMethod) (path : String) : Bool :=
  r.method == m && pathMatches r.pattern path

/-- Modelled from the spec: the rule table of section 4.2, row by row.
Admin is allowed every action; operator is allowed the four view and
filter actions plus create_scan; auditor is allowed the four view and
filter actions plus view_audit. -/
def specPolicyTable (r : Role) (a : PermissionAction) : Bool :=
  match r, a with
  | Role.admin, _ => true
  | Role.operator, PermissionAction.view_assets => true
  | Role.operator, PermissionAction.view_asset_detail => true
  | Role.operator, PermissionAction.filter_assets => true
  | Role.operator, PermissionAction.search_assets => true
  | Role.operator, PermissionAction.create_scan => true
  | Role.operator, _ => false
  | Role.auditor, PermissionAction.view_assets => true
  | Role.auditor, PermissionAction.view_asset_detail => true
  | Role.auditor, PermissionAction.filter_assets => true
  | Role.auditor, PermissionAction.search_assets => true
  | Role.auditor, PermissionAction.view_audit => true
  | Role.auditor, _ => false

/-- A concrete asset used by the witness and counterexample theorems. -/
def exAsset : Asset :=
  { id := "asset-001", tagId := "TAG-001", name := "Pallet Jack", site := "north",
    status := AssetStatus.missing, severity := Severity.high,
    lastSeenAt := 100, createdAt := 50, metadata := none }

/-- A concrete open incident on `exAsset`. -/
def exIncident : Incident :=
  { id := "inc-001", assetId := "asset-001", severity := Severity.high,
    description := "asset missing from dock", createdAt := 60,
    resolvedAt := none, resolvedBy := none, resolutionReason := none }

/-- A concrete database with one asset and one open incident. -/
def exDb : Database :=
  { assets := [exAsset], scans := [], incidents := [exIncident], auditLogs := [] }

/-- A concrete heap-store with one asset object referenced by the
collection. -/
def exHeapStore : AssetHeapStore :=
  { heap := [exAsset], assetRefs := [0] }

/-- Updating the lastSeenAt of the first matching asset rewrites what
getAssetById finds for that id. -/
lemma find_setLastSeenFirst_self (assets : List Asset) (assetId : String) (t : Nat)
    (a : Asset) (h : assets.find? (fun x => x.id == assetId) = some a) :
    (setLastSeenFirst assets assetId t).find? (fun x => x.id == assetId) =
      some { a with lastSeenAt := t } := by
  induction assets with
  | nil => simp at h
  | cons b rest ih =>
    cases hb : (b.id == assetId) with
    | true =>
      simp only [List.find?_cons_of_pos, hb, Option.some.injEq] at h
      subst h
      simp [setLastSeenFirst, hb]
    | false =>
      simp only [List.find?_cons_of_neg, hb, Bool.false_eq_true,
        not_false_eq_true] at h
      simp only [setLastSeenFirst, hb, Bool.false_eq_true, if_false]
      simp only [List.find?_cons_of_neg, hb, Bool.false_eq_true,
        not_false_eq_true]
      exact ih h

/-- Updating the lastSeenAt of the first asset matching one id leaves
lookups of every other id unchanged (the id field is preserved). -/
lemma find_setLastSeenFirst_other (assets : List Asset) (assetId id : String)
    (t : Nat) (hne : id ≠ assetId) :
    (setLastSeenFirst assets assetId t).find? (fun x => x.id == id) =
      assets.find? (fun x => x.id == id) := by
  induction assets with
  | nil => rfl
  | cons b rest ih =>
    cases hb : (b.id == assetId) with
    | true =>
      have hbid : (b.id == id) = false := by
        cases hq : (b.id == id) with
        | false => rfl
        | true => exact absurd ((eq_of_beq hq).symm.trans (eq_of_beq hb)) hne
      simp [setLastSeenFirst, hb, hbid]
    | false =>
      simp only [setLastSeenFirst, hb, Bool.false_eq_true, if_false]
      cases hid : (b.id == id) with
      | true => simp [List.find?_cons_of_pos, hid]
      | false =>
        simp only [List.find?_cons_of_neg, hid, Bool.false_eq_true,
          not_false_eq_true]
        exact ih

/-- One createScan call never lowers the lastSeenAt an id lookup sees. -/
lemma createScan_lastSeen_step (db : Database) (input : ScanInput) (now : Nat)
    (rand : String) (id : String) (a : Asset) (h : getAssetById db id = some a) :
    ∃ b, getAssetById (createScan db input now rand).2 id = some b ∧
      a.lastSeenAt ≤ b.lastSeenAt := by
  by_cases hid : id = input.assetId
  · subst hid
    rw [getAssetById] at h
    by_cases hlt : a.lastSeenAt < input.scannedAt
    · refine ⟨{ a with lastSeenAt := input.scannedAt }, ?_, Nat.le_of_lt hlt⟩
      simp only [createScan, getAssetById, h, hlt, if_pos]
      exact find_setLastSeenFirst_self db.assets input.assetId input.scannedAt a h
    · refine ⟨a, ?_, Nat.le_refl _⟩
      simp only [createScan, getAssetById, h, hlt, if_neg]
      exact h
  · refine ⟨a, ?_, Nat.le_refl _⟩
    rw [getAssetById] at h ⊢
    simp only [createScan]
    cases hfind : getAssetById db input.assetId with
    | none => simpa [hfind] using h
    | some asset =>
      by_cases hlt : asset.lastSeenAt < input.scannedAt
      · simp only [hfind, hlt, if_pos]
        rw [find_setLastSeenFirst_other db.assets input.assetId id input.scannedAt hid]
        exact h
      · simp only [hfind, hlt, if_neg, not_false_iff]
        exact h

/-- lastSeenAt is monotone along any sequence of createScan calls. -/
lemma applyScans_mono (ops : List (ScanInput × Nat × String)) :
    ∀ (db : Database) (id : String) (a b : Asset), getAssetById db id = some a →
      getAssetById (applyScans db ops) id = some b → a.lastSeenAt ≤ b.lastSeenAt := by
  induction ops with
  | nil =>
    intro db id a b h1 h2
    rw [applyScans, List.foldl_nil, h1] at h2
    cases h2
    exact Nat.le_refl _
  | cons op rest ih =>
    intro db id a b h1 h2
    obtain ⟨c, hc, hac⟩ := createScan_lastSeen_step db op.1 op.2.1 op.2.2 id a h1
    rw [applyScans, List.foldl_cons] at h2
    exact Nat.le_trans hac (ih _ id c b hc h2)

/-- Setting the status of the first matching asset rewrites what
getAssetById finds for that id. -/
lemma find_setStatusFirst_self (assets : List Asset) (assetId : String)
    (a : Asset) (h : assets.find? (fun x => x.id == assetId) = some a) :
    (setStatusFirst assets assetId).find? (fun x => x.id == assetId) =
      some { a with status := AssetStatus.resolved } := by
  induction assets with
  | nil => simp at h
  | cons b rest ih =>
    cases hb : (b.id == assetId) with
    | true =>
      simp only [List.find?_cons_of_pos, hb, Option.some.injEq] at h
      subst h
      simp [setStatusFirst, hb]
    | false =>
      simp only [List.find?_cons_of_neg, hb, Bool.false_eq_true,
        not_false_eq_true] at h
      simp only [setStatusFirst, hb, Bool.false_eq_true, if_false]
      simp only [List.find?_cons_of_neg, hb, Bool.false_eq_true,
        not_false_eq_true]
      exact ih h

/-- A successful resolveIncident unshifts exactly one audit entry, the
resolve entry for the returned incident. -/
lemma resolveIncident_ok_auditLogs (db : Database) (assetId rb rs : String)
    (now : Nat) (rand : String) (inc : Incident) (db2 : Database)
    (h : resolveIncident db assetId rb rs now rand = Except.ok (inc, db2)) :
    db2.auditLogs = mkResolveAuditEntry assetId inc.id rb rs now rand :: db.auditLogs := by
  rw [resolveIncident] at h
  cases hm : (unresolvedFor db assetId).mergeSort
      (fun a b => b.createdAt ≤ a.createdAt) with
  | nil =>
    rw [hm] at h
    simp at h
  | cons chosen rest =>
    rw [hm] at h
    simp only [Except.ok.injEq, Prod.mk.injEq] at h
    obtain ⟨h1, h2⟩ := h
    subst h1
    subst h2
    rfl

/-- C1: for every role r in operator/admin/auditor and every action a,
the policy function `can r a` returns exactly the allow/deny value of the
rule table of spec section 4.2: admin is allowed everything, operator
exactly the view and filter actions plus create_scan, auditor exactly the
view and filter actions plus view_audit. -/
theorem can_matches_spec_table : ∀ (r : Role) (a : PermissionAction),
    can r a = specPolicyTable r a := by
  intro r a
  cases r <;> cases a <;> rfl

/-- C7: a request whose role token is absent or unrecognized is treated
exactly as operator: the derived role is operator, so the request is
permitted precisely the actions an operator is permitted and denied all
others, and never granted any privilege beyond operator. -/
theorem unknown_role_treated_as_operator (h : Option String)
    (ha : h ≠ some "admin") (ho : h ≠ some "operator") (hau : h ≠ some "auditor") :
    getRoleFromRequest h = Role.operator ∧
      ∀ a, can (getRoleFromRequest h) a = can Role.operator a := by
  have hrole : getRoleFromRequest h = Role.operator := by
    match h with
    | none => rfl
    | some s =>
      have h1 : ¬ s = "admin" := fun hs => ha (by rw [hs])
      have h2 : ¬ s = "operator" := fun hs => ho (by rw [hs])
      have h3 : ¬ s = "auditor" := fun hs => hau (by rw [hs])
      simp [getRoleFromRequest, h1, h2, h3]
  exact ⟨hrole, fun a => by rw [hrole]⟩

/-- Witness for C7 at the concrete unrecognized token "root". -/
theorem unknown_role_treated_as_operator_witness :
    ((some "root" : Option String) ≠ some "admin" ∧
     (some "root" : Option String) ≠ some "operator" ∧
     (some "root" : Option String) ≠ some "auditor") ∧
    (getRoleFromRequest (some "root") = Role.operator ∧
      ∀ a, can (getRoleFromRequest (some "root")) a = can Role.operator a) :=
  ⟨⟨by decide, by decide, by decide⟩,
   unknown_role_treated_as_operator (some "root") (by decide) (by decide) (by decide)⟩

/-- C4: a createScan whose scannedAt is not strictly later than the
current lastSeenAt of the targeted asset leaves lastSeenAt unchanged; a
strictly later one updates it to exactly the scannedAt of the new scan;
and along any sequence of createScan calls lastSeenAt never regresses. -/
theorem createScan_lastSeen_monotone :
    (∀ (db : Database) (input : ScanInput) (now : Nat) (rand : String) (a : Asset),
      getAssetById db input.assetId = some a →
        (input.scannedAt ≤ a.lastSeenAt →
          getAssetById (createScan db input now rand).2 input.assetId = some a) ∧
        (a.lastSeenAt < input.scannedAt →
          getAssetById (createScan db input now rand).2 input.assetId =
            some { a with lastSeenAt := input.scannedAt })) ∧
    (∀ (db : Database) (ops : List (ScanInput × Nat × String)) (id : String)
      (a b : Asset), getAssetById db id = some a →
        getAssetById (applyScans db ops) id = some b →
        a.lastSeenAt ≤ b.lastSeenAt) := by
  constructor
  · intro db input now rand a h
    constructor
    · intro hle
      have hnlt : ¬ a.lastSeenAt < input.scannedAt := Nat.not_lt.mpr hle
      rw [getAssetById] at h
      simp only [createScan, getAssetById, h, hnlt, if_neg, not_false_iff]
    · intro hlt
      rw [getAssetById] at h
      simp only [createScan, getAssetById, h, hlt, if_pos]
      exact find_setLastSeenFirst_self db.assets input.assetId input.scannedAt a h
  · intro db ops id a b h1 h2
    exact applyScans_mono ops db id a b h1 h2

/-- Witness for C4: on the concrete one-asset database, a scan stamped
500 (later than lastSeenAt 100) advances lastSeenAt to exactly 500. -/
theorem createScan_lastSeen_monotone_witness :
    getAssetById exDb "asset-001" = some exAsset ∧
    exAsset.lastSeenAt < 500 ∧
    getAssetById
      (createScan exDb
        { assetId := "asset-001", site := "south", scannedAt := 500,
          readerId := "reader-9" } 500 "r1").2 "asset-001" =
      some { exAsset with lastSeenAt := 500 } :=
  ⟨by decide, by decide,
    (createScan_lastSeen_monotone.1 exDb
      { assetId := "asset-001", site := "south", scannedAt := 500,
        readerId := "reader-9" } 500 "r1" exAsset (by decide)).2 (by decide)⟩

/-- With no unresolved incident for the asset, resolveIncident throws. -/
lemma resolveIncident_empty (db : Database) (assetId rb rs : String)
    (now : Nat) (rand : String) (h : unresolvedFor db assetId = []) :
    resolveIncident db assetId rb rs now rand =
      Except.error ("No unresolved incident found for asset " ++ assetId) := by
  simp only [resolveIncident, h, List.mergeSort_nil]

/-- Marking the only unresolved incident of an asset resolved leaves the
asset with no unresolved incident. -/
lemma unresolvedFor_after_resolve (db : Database) (assetId : String)
    (i : Incident) (hi : unresolvedFor db assetId = [i]) (now : Nat)
    (rb rs : String) :
    (db.incidents.map fun x =>
        if x.id == i.id then
          { x with
              resolvedAt := some now
              resolvedBy := some rb
              resolutionReason := some rs }
        else x).filter
      (fun inc => inc.assetId == assetId && inc.resolvedAt == none) = [] := by
  rw [List.filter_eq_nil_iff]
  intro y hy
  rw [List.mem_map] at hy
  obtain ⟨x, hx, rfl⟩ := hy
  cases hid : (x.id == i.id) with
  | true => simp [hid]
  | false =>
    simp only [hid, Bool.false_eq_true, if_false]
    intro hpred
    have hxmem : x ∈ unresolvedFor db assetId := List.mem_filter.mpr ⟨hx, hpred⟩
    rw [hi] at hxmem
    have hxi : x = i := by simpa using hxmem
    rw [hxi] at hid
    simp at hid

/-- Resolving an asset whose unresolved set is a singleton succeeds and
leaves the asset with no unresolved incident. -/
lemma resolveIncident_singleton (db : Database) (assetId rb rs : String)
    (now : Nat) (rand : String) (i : Incident)
    (hi : unresolvedFor db assetId = [i]) :
    ∃ inc db2, resolveIncident db assetId rb rs now rand = Except.ok (inc, db2) ∧
      unresolvedFor db2 assetId = [] := by
  have hm : (unresolvedFor db assetId).mergeSort
      (fun a b => b.createdAt ≤ a.createdAt) = [i] := by
    rw [hi, List.mergeSort_singleton]
  refine
    ⟨{ i with
        resolvedAt := some now
        resolvedBy := some rb
        resolutionReason := some rs },
     { db with
        incidents := db.incidents.map fun x =>
          if x.id == i.id then
            { x with
                resolvedAt := some now
                resolvedBy := some rb
                resolutionReason := some rs }
          else x
        assets := setStatusFirst db.assets assetId
        auditLogs := mkResolveAuditEntry assetId i.id rb rs now rand :: db.auditLogs },
     ?_, ?_⟩
  · simp only [resolveIncident]
    rw [hm]
  · exact unresolvedFor_after_resolve db assetId i hi now rb rs

/-- C2: a resolve on an asset with at least one unresolved incident picks
an unresolved incident of that asset whose createdAt is maximal (the
most-recently-created one), returns it with resolvedAt set to the current
time, resolvedBy set to the actor and resolutionReason set to the
supplied reason, flips the status of the parent asset to resolved, and
appends exactly one audit entry with action incident.resolve, resource
type incident, the resolved incident id, and details containing exactly
assetId, incidentId and resolutionReason. -/
theorem resolveIncident_success_spec (db : Database)
    (assetId resolvedBy reason : String) (now : Nat) (rand : String)
    (h : unresolvedFor db assetId ≠ []) :
    ∃ chosen db2,
      resolveIncident db assetId resolvedBy reason now rand =
        Except.ok
          ({ chosen with
              resolvedAt := some now
              resolvedBy := some resolvedBy
              resolutionReason := some reason }, db2) ∧
      chosen ∈ unresolvedFor db assetId ∧
      (∀ i ∈ unresolvedFor db assetId, i.createdAt ≤ chosen.createdAt) ∧
      (∀ a, getAssetById db assetId = some a →
        getAssetById db2 assetId = some { a with status := AssetStatus.resolved }) ∧
      ∃ e, db2.auditLogs = e :: db.auditLogs ∧
        e.action = "incident.resolve" ∧ e.resourceType = "incident" ∧
        e.resourceId = chosen.id ∧
        e.details = some [("assetId", assetId), ("incidentId", chosen.id),
                          ("resolutionReason", reason)] := by
  cases hm : (unresolvedFor db assetId).mergeSort
      (fun a b => b.createdAt ≤ a.createdAt) with
  | nil =>
    exfalso
    have hp := List.mergeSort_perm (unresolvedFor db assetId)
      (fun a b => b.createdAt ≤ a.createdAt)
    rw [hm] at hp
    exact h hp.symm.eq_nil
  | cons chosen rest =>
    have hred : resolveIncident db assetId resolvedBy reason now rand =
        Except.ok
          ({ chosen with
              resolvedAt := some now
              resolvedBy := some resolvedBy
              resolutionReason := some reason },
           { db with
              incidents := db.incidents.map fun i =>
                if i.id == chosen.id then
                  { i with
                      resolvedAt := some now
                      resolvedBy := some resolvedBy
                      resolutionReason := some reason }
                else i
              assets := setStatusFirst db.assets assetId
              auditLogs :=
                mkResolveAuditEntry assetId chosen.id resolvedBy reason now rand ::
                  db.auditLogs }) := by
      simp only [resolveIncident]
      rw [hm]
    refine ⟨chosen, _, hred, ?_, ?_, ?_, ?_⟩
    · have hmem : chosen ∈ (unresolvedFor db assetId).mergeSort
          (fun a b => b.createdAt ≤ a.createdAt) := by
        rw [hm]
        exact List.mem_cons_self _ _
      exact List.mem_mergeSort.mp hmem
    · have htrans : ∀ (a b c : Incident),
          decide (b.createdAt ≤ a.createdAt) = true →
          decide (c.createdAt ≤ b.createdAt) = true →
          decide (c.createdAt ≤ a.createdAt) = true := by
        intro a b c h1 h2
        simp only [decide_eq_true_eq] at h1 h2 ⊢
        omega
      have htotal : ∀ (a b : Incident),
          (decide (b.createdAt ≤ a.createdAt) ||
            decide (a.createdAt ≤ b.createdAt)) = true := by
        intro a b
        simp only [Bool.or_eq_true, decide_eq_true_eq]
        omega
      have hpw := List.sorted_mergeSort htrans htotal (unresolvedFor db assetId)
      rw [hm] at hpw
      intro i hi
      have hmem : i ∈ (unresolvedFor db assetId).mergeSort
          (fun a b => b.createdAt ≤ a.createdAt) := List.mem_mergeSort.mpr hi
      rw [hm] at hmem
      rcases List.mem_cons.mp hmem with h1 | h2
      · subst h1
        exact Nat.le_refl _
      · exact of_decide_eq_true ((List.pairwise_cons.mp hpw).1 i h2)
    · intro a ha
      rw [getAssetById] at ha
      show (setStatusFirst db.assets assetId).find? (fun x => x.id == assetId) =
        some { a with status := AssetStatus.resolved }
      exact find_setStatusFirst_self db.assets assetId a ha
    · exact ⟨mkResolveAuditEntry assetId chosen.id resolvedBy reason now rand,
        rfl, rfl, rfl, rfl, rfl⟩

/-- Witness for C2 on the concrete database: resolving the only open
incident of asset-001. -/
theorem resolveIncident_success_spec_witness :
    unresolvedFor exDb "asset-001" ≠ [] ∧
    ∃ chosen db2,
      resolveIncident exDb "asset-001" "admin-001" "found in audit" 999 "r2" =
        Except.ok
          ({ chosen with
              resolvedAt := some 999
              resolvedBy := some "admin-001"
              resolutionReason := some "found in audit" }, db2) ∧
      chosen ∈ unresolvedFor exDb "asset-001" ∧
      (∀ i ∈ unresolvedFor exDb "asset-001", i.createdAt ≤ chosen.createdAt) ∧
      (∀ a, getAssetById exDb "asset-001" = some a →
        getAssetById db2 "asset-001" = some { a with status := AssetStatus.resolved }) ∧
      ∃ e, db2.auditLogs = e :: exDb.auditLogs ∧
        e.action = "incident.resolve" ∧ e.resourceType = "incident" ∧
        e.resourceId = chosen.id ∧
        e.details = some [("assetId", "asset-001"), ("incidentId", chosen.id),
                          ("resolutionReason", "found in audit")] :=
  ⟨by decide,
   resolveIncident_success_spec exDb "asset-001" "admin-001" "found in audit"
     999 "r2" (by decide)⟩

/-- C3: a resolve call on an asset with zero unresolved incidents fails
with NotFound (404) and leaves the store untouched — in particular no
audit entry is appended; and after a first call resolves the only
unresolved incident of an asset, a second consecutive call fails with
NotFound and leaves the store of the first call untouched, so no second
audit record is appended for that incident. -/
theorem resolve_notFound_and_no_double (db : Database)
    (roleHeader userIdHeader : Option String) (assetId reason : String)
    (now1 now2 : Nat) (rand1 rand2 : String)
    (hrole : can (getRoleFromRequest roleHeader)
      PermissionAction.resolve_incident = true)
    (hreason : jsTrim reason ≠ "") :
    (unresolvedFor db assetId = [] →
      resolveIncidentHandler db roleHeader userIdHeader assetId reason now1 rand1 =
        (HResp.failure 404 ("No unresolved incident found for asset " ++ assetId),
         db)) ∧
    (∀ i, unresolvedFor db assetId = [i] →
      ∀ resp db2,
        resolveIncidentHandler db roleHeader userIdHeader assetId reason
          now1 rand1 = (resp, db2) →
        resolveIncidentHandler db2 roleHeader userIdHeader assetId reason
          now2 rand2 =
          (HResp.failure 404 ("No unresolved incident found for asset " ++ assetId),
           db2)) := by
  have hcond : (!can (getRoleFromRequest roleHeader)
      PermissionAction.resolve_incident) = false := by
    rw [hrole]
    rfl
  constructor
  · intro hempty
    simp only [resolveIncidentHandler, hcond, Bool.false_eq_true, if_false]
    rw [if_neg hreason,
      resolveIncident_empty db assetId (getUserIdFromRequest userIdHeader)
        (jsTrim reason) now1 rand1 hempty]
  · intro i hi resp db2 hfirst
    obtain ⟨inc1, db2a, hok, hempty2⟩ :=
      resolveIncident_singleton db assetId (getUserIdFromRequest userIdHeader)
        (jsTrim reason) now1 rand1 i hi
    have hfirstEq : resolveIncidentHandler db roleHeader userIdHeader assetId
        reason now1 rand1 = (HResp.success 200 inc1, db2a) := by
      simp only [resolveIncidentHandler, hcond, Bool.false_eq_true, if_false]
      rw [if_neg hreason, hok]
    rw [hfirstEq] at hfirst
    injection hfirst with h1 h2
    subst h2
    simp only [resolveIncidentHandler, hcond, Bool.false_eq_true, if_false]
    rw [if_neg hreason,
      resolveIncident_empty db2a assetId (getUserIdFromRequest userIdHeader)
        (jsTrim reason) now2 rand2 hempty2]

/-- Witness for C3 on the concrete database: the only open incident of
asset-001 is resolved by a first call, and the second call reports 404
without touching the store again. -/
theorem resolve_notFound_and_no_double_witness :
    can (getRoleFromRequest (some "admin")) PermissionAction.resolve_incident = true ∧
    jsTrim "verified" ≠ "" ∧
    ((unresolvedFor exDb "asset-001" = [] →
      resolveIncidentHandler exDb (some "admin") (some "admin-001") "asset-001"
        "verified" 1000 "a" =
        (HResp.failure 404 ("No unresolved incident found for asset " ++ "asset-001"),
         exDb)) ∧
    (∀ i, unresolvedFor exDb "asset-001" = [i] →
      ∀ resp db2,
        resolveIncidentHandler exDb (some "admin") (some "admin-001") "asset-001"
          "verified" 1000 "a" = (resp, db2) →
        resolveIncidentHandler db2 (some "admin") (some "admin-001") "asset-001"
          "verified" 2000 "b" =
          (HResp.failure 404 ("No unresolved incident found for asset " ++ "asset-001"),
           db2))) :=
  ⟨by decide, by decide,
   resolve_notFound_and_no_double exDb (some "admin") (some "admin-001")
     "asset-001" "verified" 1000 2000 "a" "b" (by decide) (by decide)⟩

/-- C5: audit entries are append-only — every store mutation leaves the
previous audit list intact as a suffix of the new one (nothing is updated
or deleted) — and retrieval is newest-first: after any sequence of
createAuditLog calls the first retrieved entry is the last one appended. -/
theorem auditLog_append_only_newest_first :
    (∀ (db : Database) (op : StoreOp),
      db.auditLogs <:+ (applyOp db op).auditLogs) ∧
    (∀ (db : Database) (pre : List (AuditLogInput × Nat × String))
      (x : AuditLogInput × Nat × String),
      (getAuditLogs (appendMany db (pre ++ [x]))).head? =
        some (mkAuditLog x.1 x.2.1 x.2.2)) := by
  constructor
  · intro db op
    cases op with
    | scanOp input now rand =>
      exact List.suffix_refl _
    | resolveOp assetId rb rs now rand =>
      simp only [applyOp]
      cases hres : resolveIncident db assetId rb rs now rand with
      | ok p =>
        obtain ⟨inc, db2⟩ := p
        show db.auditLogs <:+ db2.auditLogs
        rw [resolveIncident_ok_auditLogs db assetId rb rs now rand inc db2 hres]
        exact List.suffix_cons _ _
      | error e =>
        exact List.suffix_refl _
    | auditOp input now rand =>
      exact List.suffix_cons _ _
  · intro db pre x
    rw [appendMany, List.foldl_append, List.foldl_cons, List.foldl_nil]
    rfl

/-- C6: a createScan request whose assetId does not resolve to an
existing asset fails with NotFound (404) and adds no scan record — the
store is returned unchanged. -/
theorem createScanHandler_asset_notFound (db : Database)
    (roleHeader : Option String) (body : ScanBody) (now : Nat) (rand : String)
    (hrole : can (getRoleFromRequest roleHeader)
      PermissionAction.create_scan = true)
    (h1 : body.assetId ≠ "") (h2 : body.site ≠ "") (h3 : body.readerId ≠ "")
    (habsent : getAssetById db body.assetId = none) :
    createScanHandler db roleHeader body now rand =
      (HResp.failure 404 "Asset not found", db) := by
  have hcond : (!can (getRoleFromRequest roleHeader)
      PermissionAction.create_scan) = false := by
    rw [hrole]
    rfl
  simp only [createScanHandler, hcond, Bool.false_eq_true, if_false]
  rw [if_neg (fun hcon => hcon.elim h1 (fun hc => hc.elim h2 h3)), habsent]

/-- Witness for C6: a scan for the unknown asset id ghost against the
concrete database. -/
theorem createScanHandler_asset_notFound_witness :
    can (getRoleFromRequest (some "operator")) PermissionAction.create_scan = true ∧
    getAssetById exDb "ghost" = none ∧
    createScanHandler exDb (some "operator")
      { assetId := "ghost", site := "north", readerId := "r-1" } 5 "z" =
      (HResp.failure 404 "Asset not found", exDb) :=
  ⟨by decide, by decide,
   createScanHandler_asset_notFound exDb (some "operator")
     { assetId := "ghost", site := "north", readerId := "r-1" } 5 "z"
     (by decide) (by decide) (by decide) (by decide) (by decide)⟩

/-- C10: for a permitted role, listing audit logs always answers 200 with
a front-anchored prefix of the filtered newest-first audit list, for every
possible limit parameter value (absent, empty, not a number, negative or
huge — slice semantics never error), and a nonnegative numeric limit n
bounds the result length by n. -/
theorem getAuditLogsHandler_limit_spec (db : Database)
    (roleHeader action userId resourceType limit : Option String)
    (hrole : can (getRoleFromRequest roleHeader)
      PermissionAction.view_audit = true) :
    ∃ logs, getAuditLogsHandler db roleHeader action userId resourceType limit =
        HResp.success 200 logs ∧
      logs <+: filteredAuditLogs db action userId resourceType ∧
      (∀ s n, limit = some s → jsParseInt s = some ((n : Nat) : Int) →
        logs.length ≤ n) := by
  have hcond : (!can (getRoleFromRequest roleHeader)
      PermissionAction.view_audit) = false := by
    rw [hrole]
    rfl
  refine ⟨(match limit with
    | none => filteredAuditLogs db action userId resourceType
    | some s =>
      if s = "" then filteredAuditLogs db action userId resourceType
      else jsSliceEnd (filteredAuditLogs db action userId resourceType)
        (jsParseInt s)), ?_, ?_, ?_⟩
  · simp only [getAuditLogsHandler, hcond, Bool.false_eq_true, if_false]
  · cases limit with
    | none => exact List.prefix_refl _
    | some s =>
      show (if s = "" then filteredAuditLogs db action userId resourceType
        else jsSliceEnd (filteredAuditLogs db action userId resourceType)
          (jsParseInt s)) <+: filteredAuditLogs db action userId resourceType
      by_cases hs : s = ""
      · rw [if_pos hs]
      · rw [if_neg hs]
        cases hp : jsParseInt s with
        | none => exact List.nil_prefix
        | some iv =>
          by_cases hneg : iv < 0
          · simp only [jsSliceEnd, if_pos hneg]
            exact List.take_prefix _ _
          · simp only [jsSliceEnd, if_neg hneg]
            exact List.take_prefix _ _
  · intro s n hs hp
    subst hs
    show (if s = "" then filteredAuditLogs db action userId resourceType
      else jsSliceEnd (filteredAuditLogs db action userId resourceType)
        (jsParseInt s)).length ≤ n
    by_cases hsempty : s = ""
    · subst hsempty
      have hnone : jsParseInt "" = none := rfl
      rw [hnone] at hp
      exact Option.noConfusion hp
    · rw [if_neg hsempty, hp]
      have hnn : ¬ ((n : Int) < 0) := Int.not_lt.mpr (Int.natCast_nonneg n)
      simp only [jsSliceEnd, if_neg hnn, Int.toNat_natCast]
      exact List.length_take_le _ _

/-- Witness for C10: the auditor role listing audit logs of the concrete
database with limit 2. -/
theorem getAuditLogsHandler_limit_spec_witness :
    can (getRoleFromRequest (some "auditor")) PermissionAction.view_audit = true ∧
    ∃ logs, getAuditLogsHandler exDb (some "auditor") none none none (some "2") =
        HResp.success 200 logs ∧
      logs <+: filteredAuditLogs exDb none none none ∧
      (∀ s n, (some "2" : Option String) = some s →
        jsParseInt s = some ((n : Nat) : Int) → logs.length ≤ n) :=
  ⟨by decide,
   getAuditLogsHandler_limit_spec exDb (some "auditor") none none none
     (some "2") (by decide)⟩

/-- C9 counterexample: the claim that no caller mutation on a returned
value can change store state is false — getAssetById returns a live
reference into the asset collection of the concrete store, and a caller
write through that reference changes what the store subsequently reads. -/
theorem reads_return_live_references_counterexample :
    getAssetByIdRef exHeapStore "asset-001" = some 0 ∧
    storeAssets (heapWrite exHeapStore 0 { exAsset with name := "tampered" }) ≠
      storeAssets exHeapStore := by
  exact ⟨rfl, by decide⟩

/-- C9 amended: list reads copy only the outer array; the elements, and
the result of getAssetById, are live references owned by the store — the
returned reference is an element of the stored reference array, and a
caller write through it lands in the heap the store reads from. -/
theorem getAssetById_live_reference (s : AssetHeapStore) (id : String) (r : Nat)
    (h : getAssetByIdRef s id = some r) :
    r ∈ s.assetRefs ∧
      ∀ v, r < s.heap.length → readRef (heapWrite s r v) r = some v := by
  constructor
  · exact List.mem_of_find?_eq_some h
  · intro v hr
    simp [readRef, heapWrite, List.getElem?_set_self, hr]

/-- Witness for the amended C9 on the concrete store. -/
theorem getAssetById_live_reference_witness :
    getAssetByIdRef exHeapStore "asset-001" = some 0 ∧
    (0 ∈ exHeapStore.assetRefs ∧
      ∀ v, 0 < exHeapStore.heap.length →
        readRef (heapWrite exHeapStore 0 v) 0 = some v) :=
  ⟨rfl, getAssetById_live_reference exHeapStore "asset-001" 0 rfl⟩

/-- C8 (code bug): no registered route of the exported `handlers` array
matches a POST to /api/incidents, although the README documents the
endpoint and the client createIncident function calls it; the request the
claim describes is never handled. -/
theorem no_route_for_post_incidents :
    handlersRoutes.all
      (fun r => !routeMatches r HttpMethod.post "/api/incidents") = true := by
  decide

end Guardian

